import Mathlib

/-!
# Verification development for the Spine Database API core

Shallow embedding, in Lean, of the core operations of the repository:

* the integrity check functions of `check_functions.py`,
* the scenario / alternative parameter-value filters of
  `alternative_value_filter.py` together with the `in_` helper of
  `db_mapping_base.py`,
* the commit / rollback session mixin of `db_mapping_commit_mixin.py`,
* the id allocator of `_add_diff_database_mapping.py`,
* the ORM construction check `_create_mapping` of `db_mapping_base.py`,
* the diff staging update path of `diff_db_mapping.py`.

Python dictionaries are modelled as association lists; a subscript on a
missing key surfaces as the dedicated `keyError` outcome when the source
performs it outside a `try` block. Fallible operations return `Except`.
-/

namespace SpineDB

/-- Finite map as an association list; `alookup` models a Python dictionary
subscript, returning `none` for a missing key. -/
def alookup {α β : Type} [DecidableEq α] : List (α × β) → α → Option β
  | [], _ => none
  | p :: ps, k => if p.1 = k then some p.2 else alookup ps k

/-- Outcome of one of the `check_...` functions of `check_functions.py`:
normal return, a raised `SpineIntegrityError` (message and the optional id of
the conflicting row), or a Python `KeyError` escaping from an unguarded
dictionary subscript. -/
inductive CheckResult : Type
  | ok : CheckResult
  | integrityError (msg : String) (conflictId : Option Nat) : CheckResult
  | keyError : CheckResult
deriving DecidableEq, Repr

/-- An object class candidate item as passed to `check_object_class`:
`none` fields model absent dictionary keys. -/
structure ObjectClassItem : Type where
  name : Option String
  type_id : Option Nat
deriving DecidableEq, Repr

/-- Embedding of `check_object_class` (check_functions.py, lines 91-115).
`currentItems` maps names of existing object classes to their ids.
Note that the foreign `type_id` error branch of the source evaluates
`current_items[name]` for the error id, which raises `KeyError` when the
name is not a current item. -/
def checkObjectClass (item : ObjectClassItem) (currentItems : List (String × Nat))
    (objectClassType : Nat) : CheckResult :=
  match item.name with
  | none => .integrityError "Python KeyError: there is no dictionary key for the object class name." none
  | some nm =>
    if nm = "" then .integrityError "Object class name is an empty string and therefore not valid" none
    else if (match item.type_id with | some t => t != objectClassType | none => false) then
      match alookup currentItems nm with
      | some cid => .integrityError "Object class does not have a type_id of an object class." (some cid)
      | none => .keyError
    else
      match alookup currentItems nm with
      | some cid => .integrityError "There cannot be more than one object class with the same name." (some cid)
      | none => .ok

/-- C10: an object-class item carrying a `type_id` different from the object
class type, whose (non-empty) name is not among the current object classes,
makes `check_object_class` escape with a `KeyError` instead of raising the
intended integrity error with a message and a conflicting id. -/
theorem check_object_class_keyerror_on_foreign_type
    (item : ObjectClassItem) (currentItems : List (String × Nat)) (objectClassType : Nat)
    (nm : String) (tid : Nat)
    (hname : item.name = some nm) (hnm : nm ≠ "")
    (htid : item.type_id = some tid) (hbad : tid ≠ objectClassType)
    (habsent : alookup currentItems nm = none) :
    checkObjectClass item currentItems objectClassType = .keyError ∧
      ∀ msg cid, checkObjectClass item currentItems objectClassType ≠ .integrityError msg cid := by
  have h : checkObjectClass item currentItems objectClassType = .keyError := by
    unfold checkObjectClass
    rw [hname]
    simp only [if_neg hnm, htid]
    have hb : (tid != objectClassType) = true := by
      simp [bne_iff_ne, hbad]
    simp [hb, habsent]
  exact ⟨h, by intro msg cid hcontra; rw [h] at hcontra; exact CheckResult.noConfusion hcontra⟩

/-- Witness for C10 at a concrete input. -/
theorem check_object_class_keyerror_on_foreign_type_witness :
    checkObjectClass ⟨some "oc", some 99⟩ [("other", 3)] 1 = .keyError :=
  (check_object_class_keyerror_on_foreign_type ⟨some "oc", some 99⟩ [("other", 3)] 1
    "oc" 99 rfl (by decide) rfl (by decide) (by decide)).1

/-- A wide relationship candidate item as passed to `check_wide_relationship`;
`none` fields model absent dictionary keys. -/
structure RelationshipItem : Type where
  name : Option String
  class_id : Option Nat
  type_id : Option Nat
  object_id_list : Option (List Nat)
deriving DecidableEq, Repr

/-- A wide relationship class record, as stored in the `relationship_classes`
lookup handed to `check_wide_relationship`. -/
structure RelClassRec : Type where
  name : String
  object_class_id_list : List Nat
deriving DecidableEq, Repr

/-- An object record, as stored in the `objects` lookup handed to
`check_wide_relationship`. -/
structure ObjRec : Type where
  class_id : Nat
  name : String
deriving DecidableEq, Repr

/-- Models `",".join([str(x) for x in object_id_list])`. -/
def joinIds (oids : List Nat) : String :=
  String.intercalate "," (oids.map toString)

/-- Embedding of `check_wide_relationship` (check_functions.py, lines
194-265). `byName` maps `(class_id, name)` of existing relationships to ids,
`byObjLst` maps `(class_id, joined object id list)` to ids. As in the source,
the foreign `type_id` error branch evaluates
`current_items_by_name[class_id, name]` for the error id, raising `KeyError`
when that key is absent. -/
def checkWideRelationship (item : RelationshipItem)
    (byName : List ((Nat × String) × Nat)) (byObjLst : List ((Nat × String) × Nat))
    (relClasses : List (Nat × RelClassRec)) (objs : List (Nat × ObjRec))
    (relEntityType : Nat) : CheckResult :=
  match item.name with
  | none => .integrityError "Python KeyError: there is no dictionary key for the relationship name." none
  | some nm =>
    if nm = "" then .integrityError "Relationship name is an empty string, which is not valid" none
    else match item.class_id with
    | none => .integrityError "Python KeyError: there is no dictionary key for the relationship class id." none
    | some classId =>
      if (match item.type_id with | some t => t != relEntityType | none => false) then
        match alookup byName (classId, nm) with
        | some cid => .integrityError "Relationship does not have entity type of a relationship." (some cid)
        | none => .keyError
      else
        match alookup byName (classId, nm) with
        | some cid => .integrityError "There is already a relationship with the same name in the same class." (some cid)
        | none =>
          match alookup relClasses classId with
          | none => .integrityError "There is no object class id list for the relationship." none
          | some rc =>
            match item.object_id_list with
            | none => .integrityError "There is no object id list for the relationship." none
            | some oids =>
              match oids.mapM (fun i => alookup objs i) with
              | none => .integrityError "Some of the objects in the relationship are invalid." none
              | some recs =>
                if recs.map (fun o => o.class_id) ≠ rc.object_class_id_list then
                  .integrityError "Incorrect objects for the relationship class." none
                else
                  match alookup byObjLst (classId, joinIds oids) with
                  | some cid => .integrityError "There is already a relationship between the same objects in the class." (some cid)
                  | none => .ok

/-- C2, counterexample: a relationship item whose member class sequence
`[10]` differs from its class's member class list `[10, 20]`, but which also
carries a foreign `type_id` and a `(class_id, name)` that is not a current
item, makes `check_wide_relationship` escape with a `KeyError`: no integrity
error is raised for it. -/
theorem check_wide_relationship_mismatch_keyerror_counterexample :
    checkWideRelationship ⟨some "r", some 5, some 99, some [1]⟩ [] []
        [(5, ⟨"rc", [10, 20]⟩)] [(1, ⟨10, "o1"⟩)] 2 = .keyError ∧
      ([1].mapM (fun i => alookup [(1, (⟨10, "o1"⟩ : ObjRec))] i)).map
          (fun recs => recs.map (fun o => o.class_id)) = some [10] ∧
      ([10] : List Nat) ≠ [10, 20] := by
  refine ⟨by decide, by decide, by decide⟩

/-- C2, amended: an item whose member objects resolve to a class-id sequence
different from the class's member class list is never accepted by
`check_wide_relationship`; moreover the only way the rejection is not a
`SpineIntegrityError` is the `KeyError` escape of the foreign-`type_id`
branch, which requires a `type_id` different from the relationship entity
type and a `(class_id, name)` absent from the current items. -/
theorem check_wide_relationship_never_accepts_mismatch
    (item : RelationshipItem)
    (byName byObjLst : List ((Nat × String) × Nat))
    (relClasses : List (Nat × RelClassRec)) (objs : List (Nat × ObjRec))
    (relEntityType : Nat)
    (classId : Nat) (rc : RelClassRec) (oids : List Nat) (recs : List ObjRec)
    (hclass : item.class_id = some classId)
    (hrc : alookup relClasses classId = some rc)
    (hoids : item.object_id_list = some oids)
    (hrecs : oids.mapM (fun i => alookup objs i) = some recs)
    (hmismatch : recs.map (fun o => o.class_id) ≠ rc.object_class_id_list) :
    checkWideRelationship item byName byObjLst relClasses objs relEntityType ≠ .ok ∧
      (checkWideRelationship item byName byObjLst relClasses objs relEntityType = .keyError →
        ∃ nm tid, item.name = some nm ∧ item.type_id = some tid ∧ tid ≠ relEntityType ∧
          alookup byName (classId, nm) = none) := by
  unfold checkWideRelationship
  match hname : item.name with
  | none => exact ⟨by simp, by simp⟩
  | some nm =>
    by_cases hnm : nm = ""
    · simp only [if_pos hnm]
      exact ⟨by simp, by simp⟩
    · simp only [if_neg hnm, hclass]
      by_cases htype : (match item.type_id with | some t => t != relEntityType | none => false) = true
      · simp only [if_pos htype]
        match hlook : alookup byName (classId, nm) with
        | some cid => exact ⟨by simp, by simp⟩
        | none =>
          refine ⟨by simp, fun _ => ?_⟩
          match htid : item.type_id with
          | none => rw [htid] at htype; simp at htype
          | some tid =>
            rw [htid] at htype
            exact ⟨nm, tid, rfl, rfl, by simpa [bne_iff_ne] using htype, hlook⟩
      · simp only [if_neg htype]
        match hlook : alookup byName (classId, nm) with
        | some cid => exact ⟨by simp, by simp⟩
        | none =>
          simp only [hrc, hoids, hrecs, if_pos hmismatch]
          exact ⟨by simp, by simp⟩

/-- Witness for the amended C2 theorem at a concrete input: the mismatching
item of the counterexample is rejected (not `ok`). -/
theorem check_wide_relationship_never_accepts_mismatch_witness :
    checkWideRelationship ⟨some "r", some 5, some 99, some [1]⟩ [] []
        [(5, ⟨"rc", [10, 20]⟩)] [(1, ⟨10, "o1"⟩)] 2 ≠ .ok :=
  (check_wide_relationship_never_accepts_mismatch ⟨some "r", some 5, some 99, some [1]⟩
    [] [] [(5, ⟨"rc", [10, 20]⟩)] [(1, ⟨10, "o1"⟩)] 2 5 ⟨"rc", [10, 20]⟩ [1] [⟨10, "o1"⟩]
    rfl (by decide) rfl (by decide) (by decide)).1

/-- A row of the `commit` table. Timestamps are modelled as naturals. -/
structure CommitRow : Type where
  id : Nat
  user : String
  date : Nat
  comment : String
deriving DecidableEq, Repr

/-- The session state of `DatabaseMappingCommitMixin`
(db_mapping_commit_mixin.py): `txnExists` models `_transaction is not None`,
`txnActive` models `_transaction.is_active`, `commits` is the content of the
`commit` table as seen inside the session, `snapshot` the content the table
reverts to if the transaction rolls back, `commitId` the `_commit_id`
attribute, and `nextPk` the autoincrement primary key of the table. -/
structure CommitState : Type where
  txnExists : Bool
  txnActive : Bool
  commits : List CommitRow
  snapshot : List CommitRow
  commitId : Nat
  nextPk : Nat
deriving DecidableEq, Repr

/-- Embedding of `has_pending_changes`. -/
def hasPendingChanges (s : CommitState) : Bool :=
  s.txnExists && s.txnActive

/-- Embedding of `_start_new_transaction`: begins the transaction and inserts
one `commit` row with an empty comment, remembering its primary key in
`_commit_id`. -/
def startNewTransaction (s : CommitState) (user : String) (now : Nat) : CommitState :=
  { txnExists := true
    txnActive := true
    snapshot := s.commits
    commits := s.commits ++ [{ id := s.nextPk, user := user, date := now, comment := "" }]
    commitId := s.nextPk
    nextPk := s.nextPk + 1 }

/-- Embedding of `_checked_execute`: does nothing on an empty item list,
starts a new transaction when none is pending, then executes the statement.
The executed statement targets a staged table, not the `commit` table, so it
leaves this state unchanged. `itemCount` is the length of the item list. -/
def checkedExecute (s : CommitState) (itemCount : Nat) (user : String) (now : Nat) : CommitState :=
  if itemCount = 0 then s
  else if hasPendingChanges s then s
  else startNewTransaction s user now

/-- Embedding of `commit_session`: raises when nothing is pending, otherwise
updates the session's `commit` row (user, fresh date, given comment) and
commits the transaction, after which `is_active` is false. -/
def commitSession (s : CommitState) (comment : String) (user : String) (now : Nat) :
    Except String CommitState :=
  if hasPendingChanges s then
    .ok { s with
      commits := s.commits.map (fun r =>
        if r.id = s.commitId then { r with user := user, date := now, comment := comment } else r)
      txnActive := false }
  else .error "Nothing to commit."

/-- Embedding of `rollback_session`: raises when nothing is pending,
otherwise rolls the transaction back, restoring the `commit` table content
from before the transaction began. -/
def rollbackSession (s : CommitState) : Except String CommitState :=
  if hasPendingChanges s then
    .ok { s with commits := s.snapshot, txnActive := false }
  else .error "Nothing to rollback."

/-- C5: `commit_session` raises the nothing-to-commit error exactly when no
writes are pending; otherwise it updates the session's commit record with the
given comment and the fresh timestamp (leaving other rows alone) and commits
the transaction. Likewise `rollback_session` raises the nothing-to-rollback
error exactly when no writes are pending, and otherwise rolls the transaction
back. -/
theorem commit_and_rollback_session_spec (s : CommitState) (c u : String) (t : Nat) :
    ((∃ e, commitSession s c u t = .error e) ↔ hasPendingChanges s = false) ∧
      (∀ s', commitSession s c u t = .ok s' →
        s'.txnActive = false ∧
          (∀ r ∈ s.commits, r.id = s.commitId →
            ({ r with user := u, date := t, comment := c } : CommitRow) ∈ s'.commits) ∧
          (∀ r ∈ s.commits, r.id ≠ s.commitId → r ∈ s'.commits)) ∧
      ((∃ e, rollbackSession s = .error e) ↔ hasPendingChanges s = false) ∧
      (∀ s', rollbackSession s = .ok s' → s'.txnActive = false ∧ s'.commits = s.snapshot) := by
  unfold commitSession rollbackSession
  by_cases h : hasPendingChanges s = true
  · simp only [if_pos h]
    refine ⟨by simp [h], fun s' hs' => ?_, by simp [h], fun s' hs' => ?_⟩
    · cases hs'
      refine ⟨rfl, fun r hr hid => ?_, fun r hr hid => ?_⟩
      · exact List.mem_map.mpr ⟨r, hr, by simp [hid]⟩
      · exact List.mem_map.mpr ⟨r, hr, by simp [hid]⟩
    · cases hs'
      exact ⟨rfl, rfl⟩
  · have h' : hasPendingChanges s = false := by simpa using h
    simp [h']

/-- Concrete pending session used to witness C5 and C6. -/
def commitWitnessState : CommitState :=
  { txnExists := true, txnActive := true
    commits := [{ id := 1, user := "anon", date := 0, comment := "" }]
    snapshot := []
    commitId := 1
    nextPk := 2 }

/-- Witness for C5 at a concrete input: committing the concrete pending
session stores the given comment and timestamp and deactivates the
transaction. -/
theorem commit_and_rollback_session_spec_witness :
    ∃ s', commitSession commitWitnessState "done" "alice" 7 = .ok s' ∧
      s'.txnActive = false ∧
      ({ id := 1, user := "alice", date := 7, comment := "done" } : CommitRow) ∈ s'.commits := by
  have h := (commit_and_rollback_session_spec commitWitnessState "done" "alice" 7).2.1
  refine ⟨_, rfl, ?_⟩
  have h2 := h _ rfl
  exact ⟨h2.1, h2.2.1 { id := 1, user := "anon", date := 0, comment := "" } (by decide) (by decide)⟩

/-- Runs a sequence of write batches through `_checked_execute`; each batch
is a pair (number of items, timestamp of the write). -/
def runWrites (s : CommitState) (user : String) (batches : List (Nat × Nat)) : CommitState :=
  batches.foldl (fun st b => checkedExecute st b.1 user b.2) s

/-- `_checked_execute` never changes a session with pending changes. -/
theorem checkedExecute_of_pending (s : CommitState) (n : Nat) (u : String) (t : Nat)
    (h : hasPendingChanges s = true) : checkedExecute s n u t = s := by
  unfold checkedExecute
  by_cases hn : n = 0 <;> simp [hn, h]

/-- Folding `_checked_execute` over a pending session leaves it unchanged. -/
theorem runWrites_of_pending (s : CommitState) (u : String) (batches : List (Nat × Nat))
    (h : hasPendingChanges s = true) : runWrites s u batches = s := by
  induction batches with
  | nil => rfl
  | cons b bs ih =>
    unfold runWrites
    rw [List.foldl_cons, checkedExecute_of_pending s b.1 u b.2 h]
    exact ih

/-- C6: starting from a session with no pending changes whose `commit` table
does not already use the fresh primary key, any non-empty sequence of
non-empty write batches creates exactly one new `commit` row (at the first
write), and committing with comment `c` leaves the table extended by exactly
that single row, now carrying comment `c`. -/
theorem single_commit_row_per_session (s : CommitState) (u c : String)
    (batches : List (Nat × Nat)) (t : Nat)
    (hfresh : hasPendingChanges s = false)
    (hpk : ∀ r ∈ s.commits, r.id ≠ s.nextPk)
    (hne : batches ≠ [])
    (hbatch : ∀ b ∈ batches, b.1 ≠ 0) :
    (runWrites s u batches).commits.length = s.commits.length + 1 ∧
      ∀ s₂, commitSession (runWrites s u batches) c u t = .ok s₂ →
        s₂.commits = s.commits ++ [{ id := s.nextPk, user := u, date := t, comment := c }] := by
  match batches, hne with
  | b :: bs, _ =>
    have hb1 : b.1 ≠ 0 := hbatch b (List.mem_cons_self b bs)
    have hstep : checkedExecute s b.1 u b.2 = startNewTransaction s u b.2 := by
      unfold checkedExecute
      simp [hb1, hfresh]
    have hpend : hasPendingChanges (startNewTransaction s u b.2) = true := rfl
    have hrun : runWrites s u (b :: bs) = startNewTransaction s u b.2 := by
      unfold runWrites
      rw [List.foldl_cons, hstep]
      exact runWrites_of_pending _ u bs hpend
    rw [hrun]
    constructor
    · simp [startNewTransaction]
    · intro s₂ hs₂
      unfold commitSession at hs₂
      rw [if_pos hpend] at hs₂
      cases hs₂
      show (((startNewTransaction s u b.2).commits).map _) = _
      have hcid : (startNewTransaction s u b.2).commitId = s.nextPk := rfl
      have hcom : (startNewTransaction s u b.2).commits
          = s.commits ++ [{ id := s.nextPk, user := u, date := b.2, comment := "" }] := rfl
      rw [hcom, hcid, List.map_append]
      congr 1
      · have hid : ∀ r ∈ s.commits,
            (if r.id = s.nextPk then { r with user := u, date := t, comment := c } else r) = id r :=
          fun r hr => by simp [hpk r hr]
        rw [List.map_congr_left hid, List.map_id]
      · simp

/-- Witness for C6 at a concrete input: a fresh session, two write batches,
one commit. -/
theorem single_commit_row_per_session_witness :
    (runWrites
        { txnExists := false, txnActive := false, commits := [], snapshot := [],
          commitId := 0, nextPk := 1 } "bob" [(3, 4), (2, 5)]).commits.length = 0 + 1 ∧
      ∀ s₂, commitSession (runWrites
          { txnExists := false, txnActive := false, commits := [], snapshot := [],
            commitId := 0, nextPk := 1 } "bob" [(3, 4), (2, 5)]) "c" "bob" 9 = .ok s₂ →
        s₂.commits = [] ++ [{ id := 1, user := "bob", date := 9, comment := "c" }] :=
  single_commit_row_per_session
    { txnExists := false, txnActive := false, commits := [], snapshot := [],
      commitId := 0, nextPk := 1 } "bob" "c" [(3, 4), (2, 5)] 9
    (by decide) (by intro r hr; cases hr) (by decide) (by decide)

/-- The `table_to_class` dictionary of `DatabaseMappingBase.__init__`
(db_mapping_base.py, lines 162-190): each required base table with the ORM
class name bound to it. -/
def tableToClass : List (String × String) :=
  [("alternative", "Alternative"),
   ("scenario", "Scenario"),
   ("scenario_alternative", "ScenarioAlternative"),
   ("commit", "Commit"),
   ("entity_class", "EntityClass"),
   ("entity_class_type", "EntityClassType"),
   ("entity", "Entity"),
   ("entity_type", "EntityType"),
   ("object", "Object"),
   ("object_class", "ObjectClass"),
   ("relationship_class", "RelationshipClass"),
   ("relationship", "Relationship"),
   ("relationship_entity", "RelationshipEntity"),
   ("relationship_entity_class", "RelationshipEntityClass"),
   ("entity_group", "EntityGroup"),
   ("parameter_definition", "ParameterDefinition"),
   ("parameter_value", "ParameterValue"),
   ("parameter_tag", "ParameterTag"),
   ("parameter_definition_tag", "ParameterDefinitionTag"),
   ("parameter_value_list", "ParameterValueList"),
   ("tool", "Tool"),
   ("feature", "Feature"),
   ("tool_feature", "ToolFeature"),
   ("tool_feature_method", "ToolFeatureMethod"),
   ("metadata", "Metadata"),
   ("parameter_value_metadata", "ParameterValueMetadata"),
   ("entity_metadata", "EntityMetadata")]

/-- Embedding of `_create_mapping` (db_mapping_base.py, lines 273-284):
walks `table_to_class`, collects every table name the reflected schema does
not provide, and raises a single `SpineTableNotFoundError` carrying the whole
list when it is non-empty. `schemaTables` is the set of tables the automap
reflection found. -/
def createMapping (schemaTables : List String) (ttc : List (String × String)) :
    Except (List String) Unit :=
  let notFound := (ttc.filter (fun tc => !schemaTables.contains tc.1)).map (fun tc => tc.1)
  if notFound.isEmpty then .ok () else .error notFound

/-- C8: when at least one required base table is absent from the schema,
construction fails with one error that names exactly the set of missing
tables (every missing one, not just the first). -/
theorem create_mapping_reports_every_missing_table (schemaTables : List String)
    (h : ∃ p ∈ tableToClass, ¬ schemaTables.contains p.1) :
    ∃ l, createMapping schemaTables tableToClass = .error l ∧
      ∀ t, t ∈ l ↔ ((∃ c, (t, c) ∈ tableToClass) ∧ ¬ schemaTables.contains t) := by
  unfold createMapping
  have hne : ¬ ((tableToClass.filter
      (fun tc => !schemaTables.contains tc.1)).map (fun tc => tc.1)).isEmpty := by
    obtain ⟨p, hp, hmiss⟩ := h
    have hmem : p.1 ∈ (tableToClass.filter
        (fun tc => !schemaTables.contains tc.1)).map (fun tc => tc.1) :=
      List.mem_map.mpr ⟨p, List.mem_filter.mpr ⟨hp, by simpa using hmiss⟩, rfl⟩
    intro hempty
    rw [List.isEmpty_iff] at hempty
    rw [hempty] at hmem
    cases hmem
  rw [if_neg hne]
  refine ⟨_, rfl, fun t => ?_⟩
  constructor
  · intro ht
    obtain ⟨tc, htc, hfst⟩ := List.mem_map.mp ht
    obtain ⟨hmem, hpred⟩ := List.mem_filter.mp htc
    subst hfst
    exact ⟨⟨tc.2, hmem⟩, by simpa using hpred⟩
  · rintro ⟨⟨cls, hmem⟩, hmiss⟩
    exact List.mem_map.mpr ⟨(t, cls), List.mem_filter.mpr ⟨hmem, by simpa using hmiss⟩, rfl⟩

/-- Witness for C8 at a concrete input: a schema missing both `commit` and
`entity` yields an error list containing exactly all the missing tables, in
particular both of them. -/
theorem create_mapping_reports_every_missing_table_witness :
    ∃ l, createMapping ["alternative"] tableToClass = .error l ∧
      ∀ t, t ∈ l ↔ ((∃ c, (t, c) ∈ tableToClass) ∧ ¬ (["alternative"] : List String).contains t) :=
  create_mapping_reports_every_missing_table ["alternative"] (by decide)

/-- The single `next_id` row: the persisted allocation counter for the
object class table (`object_class_id` column). `none` models SQL NULL; the
Python truthiness test also treats the value 0 as absent. The `user`/`date`
bookkeeping columns of the row play no role in allocation and are omitted. -/
structure NextIdRow : Type where
  objectClassId : Option Nat
deriving DecidableEq, Repr

/-- Allocator-relevant database state: the optional `next_id` row
(`one_or_none`), the ids present in the original object class table, and the
ids inserted so far into the diff object class table. -/
structure AllocState : Type where
  nextIdRow : Option NextIdRow
  objectClassIds : List Nat
  insertedIds : List Nat
deriving DecidableEq, Repr

/-- Embedding of `next_id_with_lock` (_add_diff_database_mapping.py, lines
68-85): fetches or creates the `next_id` row and flushes it; a failing flush
rolls back and raises (there is no retry in the function). `flushOk` is the
outcome of the single flush attempt. -/
def nextIdWithLock (s : AllocState) (flushOk : Bool) :
    Except String (NextIdRow × AllocState) :=
  let row := match s.nextIdRow with
    | some r => r
    | none => { objectClassId := none }
  if flushOk then .ok (row, { s with nextIdRow := some row })
  else .error "Unable to get next id"

/-- `max(self.ObjectClass.id)` with 0 standing for the NULL of an empty
table; the source treats NULL and 0 alike (`max_id + 1 if max_id else 1`). -/
def listMax (l : List Nat) : Nat :=
  l.foldr max 0

/-- The first id `_add_object_classes` hands out, given the fetched
`next_id` row: the persisted counter when it is truthy, else
`max(existing id) + 1`, else 1. -/
def allocFirstId (s : AllocState) : Nat :=
  let row := match s.nextIdRow with
    | some r => r
    | none => { objectClassId := none }
  let fallback := if listMax s.objectClassIds ≠ 0 then listMax s.objectClassIds + 1 else 1
  match row.objectClassId with
  | some c => if c ≠ 0 then c else fallback
  | none => fallback

/-- Embedding of `_add_object_classes` (_add_diff_database_mapping.py, lines
136-168): take the `next_id` row under lock, derive the first id, assign
consecutive ids to the `n` items, bulk-insert them into the diff table, and
persist `first + n` as the new counter. `commitOk` is the outcome of the
final session commit; on failure the session rolls back and the call
raises. -/
def addObjectClasses (s : AllocState) (n : Nat) (flushOk commitOk : Bool) :
    Except String (List Nat × AllocState) :=
  match nextIdWithLock s flushOk with
  | .error e => .error e
  | .ok (_, s₁) =>
    let firstId := allocFirstId s₁
    if commitOk then
      let ids := List.range' firstId n
      .ok (ids, { s₁ with
        nextIdRow := some { objectClassId := some (firstId + n) },
        insertedIds := s₁.insertedIds ++ ids })
    else .error "DBAPIError while inserting object classes"

/-- The persisted counter is absent (NULL row, missing row, or the falsy
value 0). -/
def counterAbsent (s : AllocState) : Prop :=
  match s.nextIdRow with
  | none => True
  | some r => r.objectClassId = none ∨ r.objectClassId = some 0

instance (s : AllocState) : Decidable (counterAbsent s) := by
  unfold counterAbsent
  match s.nextIdRow with
  | none => exact inferInstanceAs (Decidable True)
  | some r => exact inferInstanceAs (Decidable (_ ∨ _))

/-- The first allocated id is always at least 1. -/
theorem allocFirstId_pos (s : AllocState) : 1 ≤ allocFirstId s := by
  unfold allocFirstId
  cases s.nextIdRow with
  | none => dsimp; split <;> omega
  | some r =>
    dsimp
    match r.objectClassId with
    | none => dsimp; split <;> omega
    | some c =>
      dsimp
      by_cases hc : c ≠ 0
      · simpa [hc] using Nat.one_le_iff_ne_zero.mpr hc
      · simp only [hc, if_false]; split <;> omega

/-- A state whose persisted counter is a non-zero value hands that value out
as the first id. -/
theorem allocFirstId_of_counter (t : AllocState) (c : Nat) (hc : c ≠ 0)
    (h : t.nextIdRow = some { objectClassId := some c }) : allocFirstId t = c := by
  unfold allocFirstId
  rw [h]
  dsimp only
  rw [if_pos hc]

/-- Equational description of a fully successful `_add_object_classes`
call. -/
theorem addObjectClasses_ok_eq (s : AllocState) (n : Nat) :
    addObjectClasses s n true true =
      .ok (List.range' (allocFirstId s) n,
        { nextIdRow := some { objectClassId := some (allocFirstId s + n) },
          objectClassIds := s.objectClassIds,
          insertedIds := s.insertedIds ++ List.range' (allocFirstId s) n }) := by
  obtain ⟨row, ocIds, insIds⟩ := s
  cases row with
  | none => rfl
  | some r => rfl

/-- C7: (1) with no persisted counter the first id handed out is
`max(existing id) + 1`, or 1 when the object class table is empty; (2) a
successful allocation of `n` items hands out the consecutive ids starting at
the first id and persists `first + n` as the counter; (3) a flush failure
makes the allocator raise (it does not retry); (4) the ids of two successive
successful allocations are pairwise distinct and increasing. -/
theorem add_object_classes_allocation_spec (s : AllocState) (n : Nat) :
    (counterAbsent s → allocFirstId s =
        (if s.objectClassIds = [] then 1 else listMax s.objectClassIds + 1)) ∧
      (∀ ids s', addObjectClasses s n true true = .ok (ids, s') →
        ids = List.range' (allocFirstId s) n ∧
          s'.nextIdRow = some { objectClassId := some (allocFirstId s + n) }) ∧
      (∃ e, addObjectClasses s n false true = .error e) ∧
      (∀ n₂ ids₁ ids₂ s₁ s₂, addObjectClasses s n true true = .ok (ids₁, s₁) →
        addObjectClasses s₁ n₂ true true = .ok (ids₂, s₂) →
        ∀ a ∈ ids₁, ∀ b ∈ ids₂, a < b) := by
  refine ⟨?_, ?_, ?_, ?_⟩
  · intro habs
    unfold allocFirstId
    unfold counterAbsent at habs
    have hempty : (if s.objectClassIds = [] then 1 else listMax s.objectClassIds + 1)
        = (if listMax s.objectClassIds ≠ 0 then listMax s.objectClassIds + 1 else 1) := by
      by_cases he : s.objectClassIds = []
      · simp [he, listMax]
      · by_cases hm : listMax s.objectClassIds = 0
        · simp [he, hm]
        · simp [he, hm]
    rw [hempty]
    cases hrow : s.nextIdRow with
    | none => rfl
    | some r =>
      rw [hrow] at habs
      rcases habs with h0 | h0 <;> simp [h0]
  · intro ids s' hok
    rw [addObjectClasses_ok_eq] at hok
    injection hok with hok
    injection hok with h1 h2
    subst h1
    rw [← h2]
    exact ⟨rfl, rfl⟩
  · unfold addObjectClasses nextIdWithLock
    exact ⟨_, rfl⟩
  · intro n₂ ids₁ ids₂ s₁ s₂ h₁ h₂ a ha b hb
    rw [addObjectClasses_ok_eq] at h₁
    injection h₁ with h₁
    injection h₁ with h₁ids h₁st
    subst h₁ids
    rw [addObjectClasses_ok_eq] at h₂
    injection h₂ with h₂
    injection h₂ with h₂ids _
    subst h₂ids
    have hpos : 1 ≤ allocFirstId s := allocFirstId_pos s
    have hfirst₂ : allocFirstId s₁ = allocFirstId s + n :=
      allocFirstId_of_counter s₁ (allocFirstId s + n) (by omega) (by rw [← h₁st])
    have ha' : a < allocFirstId s + n := by
      have := List.mem_range'_1.mp ha
      omega
    have hb' : allocFirstId s₁ ≤ b := (List.mem_range'_1.mp hb).1
    omega

/-- Witness for C7 at a concrete input: empty table and no counter row, so
the first allocation starts at 1; allocating 2 then 1 items persists the
counters 3 and 4 and yields increasing ids; flushing fails loudly. -/
theorem add_object_classes_allocation_spec_witness :
    (allocFirstId { nextIdRow := none, objectClassIds := [], insertedIds := [] } = 1) ∧
      (∃ e, addObjectClasses { nextIdRow := none, objectClassIds := [], insertedIds := [] }
        2 false true = .error e) ∧
      (∀ a ∈ ([1, 2] : List Nat), ∀ b ∈ ([3] : List Nat), a < b) := by
  have h := add_object_classes_allocation_spec
    { nextIdRow := none, objectClassIds := [], insertedIds := [] } 2
  refine ⟨?_, h.2.2.1, ?_⟩
  · have h1 := h.1 (by decide)
    simpa using h1
  · have h4 := h.2.2.2 1 [1, 2] [3]
      { nextIdRow := some { objectClassId := some 3 }, objectClassIds := [],
        insertedIds := [] ++ [1, 2] }
      { nextIdRow := some { objectClassId := some 4 }, objectClassIds := [],
        insertedIds := ([] ++ [1, 2]) ++ [3] }
      (by rw [addObjectClasses_ok_eq]; rfl)
      (by rw [addObjectClasses_ok_eq]; rfl)
    exact h4

/-- A row of a staged table; `id` is the primary-key field
(`table_ids.get(tablename, "id")`) and `data` stands for the remaining
columns. -/
structure TableRow : Type where
  id : Nat
  data : Nat
deriving DecidableEq, Repr

/-- Per-table staging state of a `DiffDatabaseMapping` session:
`added_item_id`, `updated_item_id` and `dirty_item_id` sets (as lists) plus
the rows of the diff (shadow) table. -/
structure DiffTableState : Type where
  addedIds : List Nat
  updatedIds : List Nat
  dirtyIds : List Nat
  diffRows : List TableRow
deriving DecidableEq, Repr

/-- Embedding of `_get_items_for_update_and_insert` (diff_db_mapping.py,
lines 75-92): returns `(items_for_update, items_for_insert, dirty_ids,
updated_ids)`. Every item id enters `updated_ids`; items whose id is already
in `added ∪ updated` go to the update list, the rest go to the insert list
and their ids to `dirty_ids`. -/
def getItemsForUpdateAndInsert (added updated : List Nat) :
    List TableRow → List TableRow × List TableRow × List Nat × List Nat
  | [] => ([], [], [], [])
  | item :: rest =>
    let r := getItemsForUpdateAndInsert added updated rest
    if item.id ∈ added ∨ item.id ∈ updated then
      (item :: r.1, r.2.1, r.2.2.1, item.id :: r.2.2.2)
    else
      (r.1, item :: r.2.1, item.id :: r.2.2.1, item.id :: r.2.2.2)

/-- Embedding of `_do_update_items` (diff_db_mapping.py, lines 115-124): one
UPDATE per item of `forUpdate`, keyed on the primary key, overwriting the
matching diff rows in place, followed by one INSERT appending every item of
`forInsert` to the diff table. -/
def doUpdateItems (diffRows : List TableRow) (forUpdate forInsert : List TableRow) :
    List TableRow :=
  (forUpdate.foldl
    (fun rows item => rows.map (fun r => if r.id = item.id then item else r)) diffRows)
    ++ forInsert

/-- Embedding of `_update_items` (diff_db_mapping.py, lines 94-113) acting on
one table: splits the checked items, applies `_do_update_items`, marks the
fresh dirty ids (`_mark_as_dirty`, modelled from the spec as adding the ids
to the `dirty` set: the mixin holding it is not part of the sources) and adds
the same ids to the `updated` set; returns `updated_ids`. -/
def updateItems (s : DiffTableState) (items : List TableRow) : DiffTableState × List Nat :=
  let r := getItemsForUpdateAndInsert s.addedIds s.updatedIds items
  ({ s with
      diffRows := doUpdateItems s.diffRows r.1 r.2.1
      dirtyIds := s.dirtyIds ++ r.2.2.1
      updatedIds := s.updatedIds ++ r.2.2.1 },
    r.2.2.2)

/-- Ids collected into `dirty_ids` come only from items outside
`added ∪ updated`. -/
theorem mem_dirty_not_staged (added updated : List Nat) (items : List TableRow) :
    ∀ n ∈ (getItemsForUpdateAndInsert added updated items).2.2.1,
      ¬(n ∈ added ∨ n ∈ updated) := by
  induction items with
  | nil => intro n h; cases h
  | cons x rest ih =>
    intro n hn
    unfold getItemsForUpdateAndInsert at hn
    dsimp only at hn
    by_cases hx : x.id ∈ added ∨ x.id ∈ updated
    · rw [if_pos hx] at hn
      exact ih n hn
    · rw [if_neg hx] at hn
      rcases List.mem_cons.mp hn with heq | h
      · subst heq; exact hx
      · exact ih n h

/-- The split of `_get_items_for_update_and_insert`, item by item. -/
theorem getItemsForUpdateAndInsert_mem (added updated : List Nat) (items : List TableRow) :
    ∀ item ∈ items,
      ((item.id ∈ added ∨ item.id ∈ updated) →
        item ∈ (getItemsForUpdateAndInsert added updated items).1 ∧
          item.id ∉ (getItemsForUpdateAndInsert added updated items).2.2.1) ∧
      (¬(item.id ∈ added ∨ item.id ∈ updated) →
        item ∈ (getItemsForUpdateAndInsert added updated items).2.1 ∧
          item.id ∈ (getItemsForUpdateAndInsert added updated items).2.2.1) := by
  induction items with
  | nil => intro item h; cases h
  | cons x rest ih =>
    intro item hmem
    show _ ∧ _
    unfold getItemsForUpdateAndInsert
    dsimp only
    by_cases hx : x.id ∈ added ∨ x.id ∈ updated
    · rw [if_pos hx]
      rcases List.mem_cons.mp hmem with heq | hrest
      · subst heq
        refine ⟨fun hin => ⟨List.mem_cons_self _ _,
          fun hc => mem_dirty_not_staged added updated rest item.id hc hin⟩,
          fun hni => absurd hx hni⟩
      · have := ih item hrest
        exact ⟨fun h => ⟨List.mem_cons_of_mem _ (this.1 h).1, (this.1 h).2⟩,
          fun h => this.2 h⟩
    · rw [if_neg hx]
      rcases List.mem_cons.mp hmem with heq | hrest
      · subst heq
        refine ⟨fun h => absurd h hx,
          fun _ => ⟨List.mem_cons_self _ _, List.mem_cons_self _ _⟩⟩
      · have := ih item hrest
        refine ⟨fun h => ?_, fun h => ?_⟩
        · refine ⟨(this.1 h).1, ?_⟩
          intro hc
          rcases List.mem_cons.mp hc with hid | hid
          · exact hx (hid ▸ h)
          · exact (this.1 h).2 hid
        · exact ⟨List.mem_cons_of_mem _ (this.2 h).1, List.mem_cons_of_mem _ (this.2 h).2⟩

/-- In-place updates preserve the number of shadow rows. -/
theorem doUpdateItems_length (diffRows forUpdate forInsert : List TableRow) :
    (doUpdateItems diffRows forUpdate forInsert).length
      = diffRows.length + forInsert.length := by
  unfold doUpdateItems
  rw [List.length_append]
  congr 1
  induction forUpdate generalizing diffRows with
  | nil => rfl
  | cons u us ih =>
    rw [List.foldl_cons, ih]
    simp

/-- A row already present stays present under later updates that target
other ids. -/
theorem mem_foldl_update_of_untouched (fu : List TableRow) (rows : List TableRow)
    (item : TableRow) (hmem : item ∈ rows) (hids : ∀ u ∈ fu, u.id ≠ item.id) :
    item ∈ fu.foldl
      (fun rows it => rows.map (fun r => if r.id = it.id then it else r)) rows := by
  induction fu generalizing rows with
  | nil => exact hmem
  | cons u us ih =>
    rw [List.foldl_cons]
    refine ih _ ?_ (fun v hv => hids v (List.mem_cons_of_mem _ hv))
    refine List.mem_map.mpr ⟨item, hmem, ?_⟩
    rw [if_neg]
    intro hc
    exact hids u (List.mem_cons_self _ _) (by rw [← hc])

/-- Each update item lands in the shadow table in place of the row it
targets, provided such a row exists and the batch has no duplicate ids. -/
theorem mem_foldl_update (fu : List TableRow) :
    ∀ (rows : List TableRow) (item : TableRow), item ∈ fu →
      (∃ row ∈ rows, row.id = item.id) → fu.Pairwise (fun a b => a.id ≠ b.id) →
      item ∈ fu.foldl
        (fun rows it => rows.map (fun r => if r.id = it.id then it else r)) rows := by
  induction fu with
  | nil => intro rows item hmem _ _; cases hmem
  | cons u us ih =>
    intro rows item hmem hrow hnd
    rw [List.foldl_cons]
    have hnd' := (List.pairwise_cons.mp hnd).2
    have hhead := (List.pairwise_cons.mp hnd).1
    rcases List.mem_cons.mp hmem with heq | hrest
    · subst heq
      obtain ⟨row, hrowmem, hrowid⟩ := hrow
      refine mem_foldl_update_of_untouched us _ item
        (List.mem_map.mpr ⟨row, hrowmem, by rw [if_pos hrowid]⟩) ?_
      intro v hv
      exact (hhead v hv).symm
    · refine ih _ item hrest ?_ hnd'
      obtain ⟨row, hrowmem, hrowid⟩ := hrow
      by_cases hru : row.id = u.id
      · exact ⟨u, List.mem_map.mpr ⟨row, hrowmem, by rw [if_pos hru]⟩, by rw [← hru, hrowid]⟩
      · exact ⟨row, List.mem_map.mpr ⟨row, hrowmem, by rw [if_neg hru]⟩, hrowid⟩

/-- C3: updating checked items in a staged session splits them by membership
of the id in `added ∪ updated`: such items update their existing shadow row
in place (the shadow row count only grows by the insert items, the item ends
up in the shadow table, and the id is not added to the dirty set), while all
other items are inserted as new shadow rows with their ids added to both the
dirty and the updated sets. -/
theorem update_items_staging_spec (s : DiffTableState) (items : List TableRow)
    (hnd : items.Pairwise (fun a b => a.id ≠ b.id)) :
    ((updateItems s items).1.dirtyIds
        = s.dirtyIds ++ (getItemsForUpdateAndInsert s.addedIds s.updatedIds items).2.2.1) ∧
      ((updateItems s items).1.updatedIds
        = s.updatedIds ++ (getItemsForUpdateAndInsert s.addedIds s.updatedIds items).2.2.1) ∧
      ((updateItems s items).1.diffRows.length = s.diffRows.length
        + (getItemsForUpdateAndInsert s.addedIds s.updatedIds items).2.1.length) ∧
      (∀ item ∈ items, (item.id ∈ s.addedIds ∨ item.id ∈ s.updatedIds) →
        (item.id ∈ (updateItems s items).1.dirtyIds ↔ item.id ∈ s.dirtyIds) ∧
          ((∃ row ∈ s.diffRows, row.id = item.id) →
            item ∈ (updateItems s items).1.diffRows)) ∧
      (∀ item ∈ items, ¬(item.id ∈ s.addedIds ∨ item.id ∈ s.updatedIds) →
        item ∈ (updateItems s items).1.diffRows ∧
          item.id ∈ (updateItems s items).1.dirtyIds ∧
          item.id ∈ (updateItems s items).1.updatedIds) := by
  have hsplit := getItemsForUpdateAndInsert_mem s.addedIds s.updatedIds items
  have hfu_sub : (getItemsForUpdateAndInsert s.addedIds s.updatedIds items).1.Sublist items := by
    clear hsplit hnd
    induction items with
    | nil => exact List.Sublist.refl _
    | cons x rest ih =>
      show (getItemsForUpdateAndInsert s.addedIds s.updatedIds (x :: rest)).1.Sublist _
      unfold getItemsForUpdateAndInsert
      dsimp only
      by_cases hx : x.id ∈ s.addedIds ∨ x.id ∈ s.updatedIds
      · rw [if_pos hx]
        exact List.Sublist.cons₂ x ih
      · rw [if_neg hx]
        exact List.Sublist.cons x ih
  refine ⟨rfl, rfl, doUpdateItems_length _ _ _, ?_, ?_⟩
  · intro item hmem hin
    have h1 := (hsplit item hmem).1 hin
    constructor
    · constructor
      · intro hc
        rcases List.mem_append.mp hc with h | h
        · exact h
        · exact absurd h h1.2
      · intro hc
        exact List.mem_append.mpr (Or.inl hc)
    · intro hrow
      show item ∈ doUpdateItems s.diffRows _ _
      unfold doUpdateItems
      refine List.mem_append.mpr (Or.inl ?_)
      exact mem_foldl_update _ _ _ h1.1 hrow (List.Pairwise.sublist hfu_sub hnd)
  · intro item hmem hnin
    have h2 := (hsplit item hmem).2 hnin
    refine ⟨?_, List.mem_append.mpr (Or.inr h2.2), List.mem_append.mpr (Or.inr h2.2)⟩
    show item ∈ doUpdateItems s.diffRows _ _
    unfold doUpdateItems
    exact List.mem_append.mpr (Or.inr h2.1)

/-- Witness for C3 at a concrete input: one item with an already-staged id 1
and one item with a fresh id 2. -/
theorem update_items_staging_spec_witness :
    ((updateItems ⟨[1], [], [], [⟨1, 10⟩]⟩ [⟨1, 11⟩, ⟨2, 20⟩]).1.diffRows.length = 1 + 1) ∧
      ((1 : Nat) ∈ (updateItems ⟨[1], [], [], [⟨1, 10⟩]⟩ [⟨1, 11⟩, ⟨2, 20⟩]).1.dirtyIds
        ↔ (1 : Nat) ∈ ([] : List Nat)) ∧
      (⟨2, 20⟩ : TableRow) ∈ (updateItems ⟨[1], [], [], [⟨1, 10⟩]⟩ [⟨1, 11⟩, ⟨2, 20⟩]).1.diffRows := by
  have h := update_items_staging_spec ⟨[1], [], [], [⟨1, 10⟩]⟩ [⟨1, 11⟩, ⟨2, 20⟩]
    (by decide)
  refine ⟨h.2.2.1, ?_, ?_⟩
  · exact (h.2.2.2.1 ⟨1, 11⟩ (by decide) (by decide)).1
  · exact (h.2.2.2.2 ⟨2, 20⟩ (by decide) (by decide)).1

/-- A row of the `parameter_value` view. The opaque encoded value is
modelled as an integer. -/
structure PVRow : Type where
  id : Nat
  parameter_definition_id : Nat
  entity_id : Nat
  alternative_id : Nat
  value : Int
deriving DecidableEq, Repr

/-- A row of the `scenario_alternative` table. -/
structure SARow : Type where
  scenario_id : Nat
  alternative_id : Nat
  rank : Nat
deriving DecidableEq, Repr

/-- A row of the `alternative` table. -/
structure AlternativeRow : Type where
  id : Nat
  name : String
deriving DecidableEq, Repr

/-- One entry of the `alternatives` argument of
`apply_alternative_filter_to_parameter_value_sq`: a name (str) or an id
(int). -/
inductive AltRef : Type
  | byName (s : String)
  | byId (n : Nat)
deriving DecidableEq, Repr

/-- The error raised by `_AlternativeFilterState._alternative_ids`: either
the tuple of missing names or the tuple of missing ids. -/
inductive AltResolveErr : Type
  | namesNotFound (missing : List String)
  | idsNotFound (missing : List Nat)
deriving DecidableEq, Repr

/-- Semantics of the `in_` helper of `DatabaseMappingBase`
(db_mapping_base.py, lines 306-319) applied to a plain id list (the
`Anyone` sentinel cannot occur in the resolved alternative-id lists): the
empty list yields the constant-false predicate, otherwise membership. -/
def sqlIn (ids : List Nat) (x : Nat) : Bool :=
  if ids.isEmpty then false else ids.contains x

/-- The name entries of the argument list:
`[name for name in alternatives if isinstance(name, str)]`. -/
def altRefNames (alts : List AltRef) : List String :=
  alts.filterMap (fun a => match a with
    | .byName s => some s
    | .byId _ => none)

/-- The id entries of the argument list:
`[id_ for id_ in alternatives if isinstance(id_, int)]`. -/
def altRefIds (alts : List AltRef) : List Nat :=
  alts.filterMap (fun a => match a with
    | .byName _ => none
    | .byId i => some i)

/-- Embedding of `_AlternativeFilterState._alternative_ids`
(alternative_value_filter.py, lines 107-141): resolve all name entries
first, raising with every missing name if any; then resolve all id entries,
raising with every missing id if any; otherwise return the resolved ids. -/
def alternativeIds (db : List AlternativeRow) (alts : List AltRef) :
    Except AltResolveErr (List Nat) :=
  let alternativeNames := altRefNames alts
  let rowsFromDb := db.filter (fun r => alternativeNames.contains r.name)
  let namesInDb := rowsFromDb.map (fun r => r.name)
  if alternativeNames.length ≠ namesInDb.length then
    .error (.namesNotFound (alternativeNames.filter (fun n => !namesInDb.contains n)))
  else
    let ids := rowsFromDb.map (fun r => r.id)
    let altIds := altRefIds alts
    let rowsFromDb2 := db.filter (fun r => altIds.contains r.id)
    let idsInDb := rowsFromDb2.map (fun r => r.id)
    if altIds.length ≠ rowsFromDb2.length then
      .error (.idsNotFound (altIds.filter (fun i => !idsInDb.contains i)))
    else .ok (ids ++ idsInDb)

/-- Embedding of `_make_alternative_filtered_parameter_value_sq`
(alternative_value_filter.py, lines 176-190): keep the parameter-value rows
whose `alternative_id` passes the `in_` test over the resolved ids. -/
def alternativeFilteredParameterValueSq (pvs : List PVRow) (resolvedIds : List Nat) :
    List PVRow :=
  pvs.filter (fun pv => sqlIn resolvedIds pv.alternative_id)

/-- Embedding of `apply_alternative_filter_to_parameter_value_sq`: build the
filter state (resolving names and ids) and install the filtered subquery. -/
def applyAlternativeFilter (db : List AlternativeRow) (pvs : List PVRow)
    (alts : List AltRef) : Except AltResolveErr (List PVRow) :=
  (alternativeIds db alts).map (fun ids => alternativeFilteredParameterValueSq pvs ids)

/-- C9: applying the alternative filter with an empty alternative list
succeeds and returns no parameter-value rows at all, on every database
state, because `in_` over an empty id set is the constant-false predicate. -/
theorem alternative_filter_empty_list_yields_no_rows
    (db : List AlternativeRow) (pvs : List PVRow) :
    applyAlternativeFilter db pvs [] = .ok [] ∧
      (∀ x, sqlIn [] x = false) := by
  constructor
  · unfold applyAlternativeFilter alternativeIds
    have hfilter : db.filter (fun r => (altRefNames []).contains r.name) = [] := by
      simp [altRefNames]
    have hfilter2 : db.filter (fun r => (altRefIds []).contains r.id) = [] := by
      simp [altRefIds]
    simp only [hfilter, hfilter2]
    simp [alternativeFilteredParameterValueSq, sqlIn, Except.map, altRefNames, altRefIds]
  · intro x
    rfl

/-- The name entries of the list that resolve to no alternative in the
database. -/
def unresolvedNames (db : List AlternativeRow) (alts : List AltRef) : List String :=
  (altRefNames alts).filter (fun n => !(db.map (fun r => r.name)).contains n)

/-- The id entries of the list that resolve to no alternative in the
database. -/
def unresolvedIds (db : List AlternativeRow) (alts : List AltRef) : List Nat :=
  (altRefIds alts).filter (fun i => !(db.map (fun r => r.id)).contains i)

/-- Whether an `_alternative_ids` error reports a given unresolved id. -/
def errReportsId (e : AltResolveErr) (i : Nat) : Prop :=
  match e with
  | .idsNotFound l => i ∈ l
  | .namesNotFound _ => False

/-- Filtering through a projection preserves the filtered length. -/
theorem length_filter_pred_map {α β : Type} (l : List α) (f : α → β) (p : β → Bool) :
    (l.filter (fun a => p (f a))).length = ((l.map f).filter p).length := by
  induction l with
  | nil => rfl
  | cons x xs ih =>
    by_cases h : p (f x) = true
    · simp [List.filter_cons, h, ih]
    · simp [List.filter_cons, h, ih]

/-- Counting the members of one list inside a duplicate-free list counts the
intersection of their underlying sets. -/
theorem length_filter_mem_eq_card_inter {α : Type} [DecidableEq α] [BEq α] [LawfulBEq α]
    (X Y : List α) (hX : X.Nodup) :
    (X.filter (fun x => decide (x ∈ Y))).length = (X.toFinset ∩ Y.toFinset).card := by
  rw [← List.toFinset_card_of_nodup (hX.filter _), List.toFinset_filter,
    ← Finset.filter_mem_eq_inter]
  congr 1
  apply Finset.filter_congr
  intro x _
  simp

/-- Counting the members of one duplicate-free list inside another is
symmetric. -/
theorem length_filter_mem_comm {α : Type} [DecidableEq α] [BEq α] [LawfulBEq α] (A B : List α)
    (hA : A.Nodup) (hB : B.Nodup) :
    (B.filter (fun b => decide (b ∈ A))).length
      = (A.filter (fun a => decide (a ∈ B))).length := by
  rw [length_filter_mem_eq_card_inter B A hB, length_filter_mem_eq_card_inter A B hA,
    Finset.inter_comm]

/-- One resolution phase of `_alternative_ids`, for a projected key column
with no duplicates: the length test succeeds exactly when the requested keys
are duplicate-free and every one of them resolves, and the in-query
missing-key filter coincides with the missing-key filter over the whole
column (so a failure caused only by a repeated resolvable key reports an
empty missing tuple). -/
theorem phase_resolution {β : Type} [DecidableEq β] [BEq β] [LawfulBEq β]
    (db : List AlternativeRow) (f : AlternativeRow → β) (keys : List β)
    (hd : (db.map f).Nodup) :
    ((db.filter (fun r => keys.contains (f r))).length = keys.length ↔
        keys.Nodup ∧ keys.filter (fun n => !(db.map f).contains n) = []) ∧
      keys.filter (fun n => !((db.filter (fun r => keys.contains (f r))).map f).contains n)
        = keys.filter (fun n => !(db.map f).contains n) := by
  constructor
  · have e1 : (db.filter (fun r => keys.contains (f r))).length
        = ((db.map f).filter (fun x => keys.contains x)).length :=
      length_filter_pred_map db f _
    have e2 : ((db.map f).filter (fun x => keys.contains x))
        = ((db.map f).filter (fun x => decide (x ∈ keys))) :=
      List.filter_congr (fun x _ => by simp)
    have e3 : ((db.map f).filter (fun x => decide (x ∈ keys))).length
        = ((db.map f).toFinset ∩ keys.toFinset).card :=
      length_filter_mem_eq_card_inter _ _ hd
    rw [e1, e2, e3, Finset.inter_comm]
    constructor
    · intro h
      have hsub : keys.toFinset ∩ (db.map f).toFinset ⊆ keys.toFinset :=
        Finset.inter_subset_left
      have hc1 : (keys.toFinset ∩ (db.map f).toFinset).card ≤ keys.toFinset.card :=
        Finset.card_le_card hsub
      have hc2 : keys.toFinset.card = keys.dedup.length := List.card_toFinset keys
      have hc3 : keys.dedup.length ≤ keys.length :=
        List.Sublist.length_le (List.dedup_sublist keys)
      have hlen : keys.dedup.length = keys.length := by omega
      have hnd : keys.Nodup := by
        rw [← List.dedup_eq_self]
        exact List.Sublist.eq_of_length (List.dedup_sublist keys) hlen
      have hcard : keys.toFinset.card ≤ (keys.toFinset ∩ (db.map f).toFinset).card := by
        omega
      have heq : keys.toFinset ∩ (db.map f).toFinset = keys.toFinset :=
        Finset.eq_of_subset_of_card_le hsub hcard
      refine ⟨hnd, List.filter_eq_nil_iff.mpr (fun n hn => ?_)⟩
      have hnf : n ∈ keys.toFinset := List.mem_toFinset.mpr hn
      have hin : n ∈ keys.toFinset ∩ (db.map f).toFinset := by
        rw [heq]
        exact hnf
      have hmem : n ∈ db.map f := List.mem_toFinset.mp (Finset.mem_of_mem_inter_right hin)
      simp [hmem]
    · rintro ⟨hnd, hres⟩
      have hall : ∀ n ∈ keys, n ∈ db.map f := by
        intro n hn
        have := List.filter_eq_nil_iff.mp hres n hn
        simpa using this
      have hsub : keys.toFinset ⊆ (db.map f).toFinset := by
        intro n hn
        exact List.mem_toFinset.mpr (hall n (List.mem_toFinset.mp hn))
      rw [Finset.inter_eq_left.mpr hsub]
      exact List.toFinset_card_of_nodup hnd
  · apply List.filter_congr
    intro n hn
    have hmem : n ∈ (db.filter (fun r => keys.contains (f r))).map f ↔ n ∈ db.map f := by
      constructor
      · intro h
        obtain ⟨r, hr, hfr⟩ := List.mem_map.mp h
        exact List.mem_map.mpr ⟨r, (List.mem_filter.mp hr).1, hfr⟩
      · intro h
        obtain ⟨r, hr, hfr⟩ := List.mem_map.mp h
        refine List.mem_map.mpr ⟨r, List.mem_filter.mpr ⟨hr, ?_⟩, hfr⟩
        simp [hfr, hn]
    have h1 : ((db.filter (fun r => keys.contains (f r))).map f).contains n
        = decide (n ∈ (db.filter (fun r => keys.contains (f r))).map f) := by
      simp
    have h2 : (db.map f).contains n = decide (n ∈ db.map f) := by
      simp
    rw [h1, h2, decide_eq_decide.mpr hmem]

/-- C4, counterexample: with the single alternative `Base` in the database,
resolving the list holding the unresolvable name `missing` and the
unresolvable id 99 raises the names-not-found error alone; the raised error
does not report the unresolved id 99. -/
theorem alternative_ids_error_counterexample :
    alternativeIds [⟨1, "Base"⟩] [.byName "missing", .byId 99]
        = .error (.namesNotFound ["missing"]) ∧
      unresolvedIds [⟨1, "Base"⟩] [.byName "missing", .byId 99] = [99] ∧
      ¬ errReportsId (.namesNotFound ["missing"]) 99 := by
  refine ⟨by rfl, by decide, fun h => h⟩

/-- C4, amended: resolving the alternative list raises exactly one error, of
one kind, assuming only the database invariants (alternative names and ids
are unique columns). The name check fails exactly when some name entry is
unresolvable or a name entry is repeated, and its error then lists exactly
the unresolvable name entries (an empty tuple when only a repeated
resolvable name caused the failure); the id check runs only when the name
check passes and fails likewise, listing exactly the unresolvable id
entries; otherwise resolution succeeds. In particular unresolved ids are
never reported alongside a names error. -/
theorem alternative_ids_reports_all_unresolved_of_kind
    (db : List AlternativeRow) (alts : List AltRef)
    (hdbn : (db.map (fun r => r.name)).Nodup)
    (hdbi : (db.map (fun r => r.id)).Nodup) :
    (¬((altRefNames alts).Nodup ∧ unresolvedNames db alts = []) →
        alternativeIds db alts = .error (.namesNotFound (unresolvedNames db alts))) ∧
      ((altRefNames alts).Nodup → unresolvedNames db alts = [] →
        ¬((altRefIds alts).Nodup ∧ unresolvedIds db alts = []) →
        alternativeIds db alts = .error (.idsNotFound (unresolvedIds db alts))) ∧
      ((altRefNames alts).Nodup → unresolvedNames db alts = [] →
        (altRefIds alts).Nodup → unresolvedIds db alts = [] →
        ∃ ids, alternativeIds db alts = .ok ids) := by
  have hnames := phase_resolution db (fun r => r.name) (altRefNames alts) hdbn
  have hids := phase_resolution db (fun r => r.id) (altRefIds alts) hdbi
  have hlen1 : ((db.filter (fun r => (altRefNames alts).contains r.name)).map
      (fun r => r.name)).length
      = (db.filter (fun r => (altRefNames alts).contains r.name)).length :=
    List.length_map _ _
  unfold unresolvedNames unresolvedIds
  refine ⟨?_, ?_, ?_⟩
  · intro hfail
    have hcond : (altRefNames alts).length
        ≠ ((db.filter (fun r => (altRefNames alts).contains r.name)).map
            (fun r => r.name)).length := by
      rw [hlen1]
      intro hcontra
      exact hfail (hnames.1.mp hcontra.symm)
    unfold alternativeIds
    dsimp only
    rw [if_pos hcond]
    exact congrArg (fun l => Except.error (AltResolveErr.namesNotFound l)) hnames.2
  · intro hndn hresolved hfail2
    have hcond : ¬ (altRefNames alts).length
        ≠ ((db.filter (fun r => (altRefNames alts).contains r.name)).map
            (fun r => r.name)).length := by
      rw [hlen1]
      intro hcontra
      exact hcontra (hnames.1.mpr ⟨hndn, hresolved⟩).symm
    have hcond2 : (altRefIds alts).length
        ≠ (db.filter (fun r => (altRefIds alts).contains r.id)).length := by
      intro hcontra
      exact hfail2 (hids.1.mp hcontra.symm)
    unfold alternativeIds
    dsimp only
    rw [if_neg hcond, if_pos hcond2]
    exact congrArg (fun l => Except.error (AltResolveErr.idsNotFound l)) hids.2
  · intro hndn hresolved hndi hresolved2
    have hcond : ¬ (altRefNames alts).length
        ≠ ((db.filter (fun r => (altRefNames alts).contains r.name)).map
            (fun r => r.name)).length := by
      rw [hlen1]
      intro hcontra
      exact hcontra (hnames.1.mpr ⟨hndn, hresolved⟩).symm
    have hcond2 : ¬ (altRefIds alts).length
        ≠ (db.filter (fun r => (altRefIds alts).contains r.id)).length := by
      intro hcontra
      exact hcontra (hids.1.mpr ⟨hndi, hresolved2⟩).symm
    unfold alternativeIds
    dsimp only
    rw [if_neg hcond, if_neg hcond2]
    exact ⟨_, rfl⟩

/-- Witness for the amended C4 theorem at concrete inputs, exercising all
branches, including a repeated resolvable name causing a names error with an
empty missing tuple while the id 99 stays unreported. -/
theorem alternative_ids_reports_all_unresolved_of_kind_witness :
    (alternativeIds [⟨1, "Base"⟩] [.byName "missing", .byId 99]
        = .error (.namesNotFound ["missing"])) ∧
      (alternativeIds [⟨1, "Base"⟩] [.byName "Base", .byName "Base", .byId 99]
        = .error (.namesNotFound [])) ∧
      (alternativeIds [⟨1, "Base"⟩] [.byName "Base", .byId 99]
        = .error (.idsNotFound [99])) ∧
      (∃ ids, alternativeIds [⟨1, "Base"⟩] [.byName "Base", .byId 1] = .ok ids) := by
  have h1 := alternative_ids_reports_all_unresolved_of_kind [⟨1, "Base"⟩]
    [.byName "missing", .byId 99] (by decide) (by decide)
  have h2 := alternative_ids_reports_all_unresolved_of_kind [⟨1, "Base"⟩]
    [.byName "Base", .byName "Base", .byId 99] (by decide) (by decide)
  have h3 := alternative_ids_reports_all_unresolved_of_kind [⟨1, "Base"⟩]
    [.byName "Base", .byId 99] (by decide) (by decide)
  have h4 := alternative_ids_reports_all_unresolved_of_kind [⟨1, "Base"⟩]
    [.byName "Base", .byId 1] (by decide) (by decide)
  refine ⟨?_, ?_, ?_, h4.2.2 (by decide) (by decide) (by decide) (by decide)⟩
  · have := h1.1 (by decide)
    rw [this]
    rfl
  · have := h2.1 (by decide)
    rw [this]
    rfl
  · have := h3.2.1 (by decide) (by decide) (by decide)
    rw [this]
    rfl

/-- The join underlying `_make_scenario_filtered_parameter_value_sq`
(alternative_value_filter.py, lines 157-172): each parameter-value row of
the original subquery paired with each `scenario_alternative` row of the
chosen scenario that shares its `alternative_id`. -/
def scenarioJoin (pvs : List PVRow) (sas : List SARow) (scen : Nat) :
    List (PVRow × SARow) :=
  pvs.flatMap (fun pv =>
    (sas.filter (fun sa =>
      decide (pv.alternative_id = sa.alternative_id) && decide (sa.scenario_id = scen))).map
      (fun sa => (pv, sa)))

/-- The `row_number() over (partition by (parameter_definition_id,
entity_id) order by rank desc)` window column: modelled as one plus the
number of joined rows of the same partition with strictly greater rank,
which is the row number whenever ranks are distinct within each partition
(the situation the scenario invariants guarantee: ties are impossible). -/
def maxRankRowNumber (joined : List (PVRow × SARow)) (p : PVRow × SARow) : Nat :=
  1 + (joined.filter (fun q =>
    decide (q.1.parameter_definition_id = p.1.parameter_definition_id) &&
      decide (q.1.entity_id = p.1.entity_id) && decide (p.2.rank < q.2.rank))).length

/-- Embedding of `_make_scenario_filtered_parameter_value_sq`: the
parameter-value rows of the join whose `max_rank_row_number` column equals
1. -/
def scenarioFilteredParameterValueSq (pvs : List PVRow) (sas : List SARow) (scen : Nat) :
    List PVRow :=
  (( scenarioJoin pvs sas scen).filter
    (fun p => decide (maxRankRowNumber (scenarioJoin pvs sas scen) p = 1))).map Prod.fst

/-- Occurrence count of a value in a list, via `filter`. -/
def countEq {α : Type} [DecidableEq α] (l : List α) (a : α) : Nat :=
  (l.filter (fun x => decide (x = a))).length

theorem countEq_cons {α : Type} [DecidableEq α] (x : α) (xs : List α) (a : α) :
    countEq (x :: xs) a = countEq xs a + (if x = a then 1 else 0) := by
  unfold countEq
  rw [List.filter_cons]
  by_cases h : x = a
  · simp [h, Nat.add_comm]
  · simp [h]

theorem countEq_append {α : Type} [DecidableEq α] (l₁ l₂ : List α) (a : α) :
    countEq (l₁ ++ l₂) a = countEq l₁ a + countEq l₂ a := by
  unfold countEq
  rw [List.filter_append, List.length_append]

theorem countEq_eq_zero {α : Type} [DecidableEq α] {l : List α} {a : α} :
    countEq l a = 0 ↔ a ∉ l := by
  unfold countEq
  rw [List.length_eq_zero, List.filter_eq_nil_iff]
  constructor
  · intro h hmem
    exact h a hmem (by simp)
  · intro h x hx
    simp only [decide_eq_true_eq]
    intro heq
    exact h (heq ▸ hx)

theorem countEq_le_one_of_nodup {α : Type} [DecidableEq α] {l : List α} (h : l.Nodup)
    (a : α) : countEq l a ≤ 1 := by
  induction l with
  | nil => exact Nat.zero_le 1
  | cons x xs ih =>
    rw [countEq_cons]
    have hx : x ∉ xs := (List.nodup_cons.mp h).1
    by_cases hxa : x = a
    · have : countEq xs a = 0 := countEq_eq_zero.mpr (hxa ▸ hx)
      simp [this, hxa]
    · simp only [hxa, if_false, Nat.add_zero]
      exact ih (List.nodup_cons.mp h).2

theorem countEq_sublist {α : Type} [DecidableEq α] {l₁ l₂ : List α}
    (h : l₁.Sublist l₂) (a : α) : countEq l₁ a ≤ countEq l₂ a :=
  List.Sublist.length_le (List.Sublist.filter _ h)

/-- Counting a pair in a tagged `map`: only the matching tag contributes. -/
theorem countEq_map_mk {α β : Type} [DecidableEq α] [DecidableEq β]
    (x a : α) (l : List β) (b : β) :
    countEq (l.map (fun y => (x, y))) (a, b) = if x = a then countEq l b else 0 := by
  by_cases hxa : x = a
  · subst hxa
    unfold countEq
    induction l with
    | nil => simp
    | cons y ys ih =>
      rw [List.map_cons, List.filter_cons, List.filter_cons]
      by_cases hyb : y = b
      · simp [hyb, ih]
      · have : ((x, y) = (x, b)) = False := by
          simp [Prod.ext_iff, hyb]
        simp [hyb, this, ih]
  · rw [if_neg hxa]
    refine countEq_eq_zero.mpr (fun hmem => ?_)
    obtain ⟨y, _, hy⟩ := List.mem_map.mp hmem
    exact hxa (congrArg Prod.fst hy)

/-- Occurrences of a pair in the scenario join factor through the
occurrences of its components. -/
theorem countEq_scenarioJoin (pvs : List PVRow) (sas : List SARow) (scen : Nat)
    (pv : PVRow) (sa : SARow) :
    countEq (scenarioJoin pvs sas scen) (pv, sa)
      = countEq pvs pv *
        countEq (sas.filter (fun s =>
          decide (pv.alternative_id = s.alternative_id) && decide (s.scenario_id = scen))) sa := by
  induction pvs with
  | nil => simp [scenarioJoin, countEq]
  | cons x xs ih =>
    unfold scenarioJoin
    rw [List.flatMap_cons, countEq_append]
    unfold scenarioJoin at ih
    rw [ih, countEq_cons, countEq_map_mk]
    by_cases hxa : x = pv
    · subst hxa
      simp
      ring
    · simp only [hxa, if_false, Nat.add_zero, Nat.zero_add]

/-- Membership in the scenario join. -/
theorem mem_scenarioJoin {pvs : List PVRow} {sas : List SARow} {scen : Nat}
    {p : PVRow × SARow} :
    p ∈ scenarioJoin pvs sas scen ↔
      p.1 ∈ pvs ∧ p.2 ∈ sas ∧ p.1.alternative_id = p.2.alternative_id ∧
        p.2.scenario_id = scen := by
  obtain ⟨pv, sa⟩ := p
  unfold scenarioJoin
  rw [List.mem_flatMap]
  constructor
  · rintro ⟨a, ha, hmem⟩
    obtain ⟨b, hb, heq⟩ := List.mem_map.mp hmem
    obtain ⟨hbmem, hbpred⟩ := List.mem_filter.mp hb
    injection heq with h1 h2
    subst h1 h2
    simp only [Bool.and_eq_true, decide_eq_true_eq] at hbpred
    exact ⟨ha, hbmem, hbpred.1, hbpred.2⟩
  · rintro ⟨h1, h2, h3, h4⟩
    exact ⟨pv, h1, List.mem_map.mpr ⟨sa,
      List.mem_filter.mpr ⟨h2, by
        simp only [Bool.and_eq_true, decide_eq_true_eq]
        exact ⟨h3, h4⟩⟩, rfl⟩⟩

/-- The window column equals 1 exactly for the rows whose rank is maximal in
their partition. -/
theorem maxRankRowNumber_eq_one_iff (J : List (PVRow × SARow)) (p : PVRow × SARow) :
    maxRankRowNumber J p = 1 ↔
      ∀ q ∈ J, q.1.parameter_definition_id = p.1.parameter_definition_id →
        q.1.entity_id = p.1.entity_id → q.2.rank ≤ p.2.rank := by
  unfold maxRankRowNumber
  constructor
  · intro h q hq h1 h2
    have hlen : (J.filter (fun q =>
        decide (q.1.parameter_definition_id = p.1.parameter_definition_id) &&
          decide (q.1.entity_id = p.1.entity_id) &&
          decide (p.2.rank < q.2.rank))).length = 0 := by omega
    have hnil := List.length_eq_zero.mp hlen
    have := List.filter_eq_nil_iff.mp hnil q hq
    simp only [Bool.and_eq_true, decide_eq_true_eq, not_and, not_lt] at this
    exact this ⟨h1, h2⟩
  · intro h
    have hnil : J.filter (fun q =>
        decide (q.1.parameter_definition_id = p.1.parameter_definition_id) &&
          decide (q.1.entity_id = p.1.entity_id) &&
          decide (p.2.rank < q.2.rank)) = [] := by
      refine List.filter_eq_nil_iff.mpr (fun q hq => ?_)
      simp only [Bool.and_eq_true, decide_eq_true_eq, not_and, not_lt]
      exact fun hc => h q hq hc.1 hc.2
    rw [hnil]
    rfl

/-- A filter keeping a unique element of a list occurring at most once is
that singleton. -/
theorem filter_eq_singleton_of_unique {α : Type} [DecidableEq α] :
    ∀ (l : List α) (p : α → Bool) (a : α), p a = true → a ∈ l →
      (∀ x ∈ l, p x = true → x = a) → countEq l a ≤ 1 → l.filter p = [a] := by
  intro l
  induction l with
  | nil => intro p a _ hmem; cases hmem
  | cons x xs ih =>
    intro p a hpa hmem huniq hcount
    rw [countEq_cons] at hcount
    by_cases hpx : p x = true
    · have hxa : x = a := huniq x (List.mem_cons_self _ _) hpx
      subst hxa
      rw [List.filter_cons, if_pos hpx]
      have hczero : countEq xs x = 0 := by
        rw [if_pos rfl] at hcount
        omega
      have hnotmem : x ∉ xs := countEq_eq_zero.mp hczero
      have hnil : xs.filter p = [] := by
        refine List.filter_eq_nil_iff.mpr (fun y hy hpy => ?_)
        exact hnotmem ((huniq y (List.mem_cons_of_mem _ hy) hpy) ▸ hy)
      rw [hnil]
    · rw [List.filter_cons, if_neg hpx]
      have hxa : x ≠ a := fun h => hpx (h ▸ hpa)
      have hmem' : a ∈ xs := by
        rcases List.mem_cons.mp hmem with h | h
        · exact absurd h.symm hxa
        · exact h
      refine ih p a hpa hmem' (fun y hy hpy => huniq y (List.mem_cons_of_mem _ hy) hpy) ?_
      rw [if_neg hxa] at hcount
      omega

/-- Filtering commutes with mapping through the projection. -/
theorem filter_map_comm {α β : Type} (l : List α) (f : α → β) (p : β → Bool) :
    (l.map f).filter p = (l.filter (fun a => p (f a))).map f := by
  induction l with
  | nil => rfl
  | cons x xs ih =>
    rw [List.map_cons, List.filter_cons, List.filter_cons]
    by_cases h : p (f x) = true
    · simp only [h, if_true, List.map_cons, ih]
    · simp only [h, Bool.false_eq_true, if_false, ih]

/-- C1: under the scenario invariants (each parameter value unique per
(entity, definition, alternative); each (scenario, alternative) ranked once
and each rank used once per scenario), the scenario-filtered parameter-value
view restricted to a (definition, entity) partition is exactly the one row
joined to the top-ranked alternative of the scenario. -/
theorem scenario_filter_selects_highest_rank
    (pvs : List PVRow) (sas : List SARow) (scen pd ent : Nat)
    (hpvnd : pvs.Pairwise (fun a b => ¬(a.entity_id = b.entity_id ∧
      a.parameter_definition_id = b.parameter_definition_id ∧
      a.alternative_id = b.alternative_id)))
    (hsand : sas.Pairwise (fun a b =>
      ¬(a.scenario_id = b.scenario_id ∧ a.alternative_id = b.alternative_id) ∧
      ¬(a.scenario_id = b.scenario_id ∧ a.rank = b.rank)))
    (pvmax : PVRow) (samax : SARow)
    (hpvmem : pvmax ∈ pvs) (hpd : pvmax.parameter_definition_id = pd)
    (hent : pvmax.entity_id = ent)
    (hsamem : samax ∈ sas) (hscen : samax.scenario_id = scen)
    (halt : samax.alternative_id = pvmax.alternative_id)
    (hmax : ∀ pv ∈ pvs, pv.parameter_definition_id = pd → pv.entity_id = ent →
      ∀ sa ∈ sas, sa.scenario_id = scen → sa.alternative_id = pv.alternative_id →
        sa.rank ≤ samax.rank) :
    (scenarioFilteredParameterValueSq pvs sas scen).filter
        (fun r => decide (r.parameter_definition_id = pd) && decide (r.entity_id = ent))
      = [pvmax] := by
  unfold scenarioFilteredParameterValueSq
  set J := scenarioJoin pvs sas scen with hJ
  have hmemJ : (pvmax, samax) ∈ J :=
    mem_scenarioJoin.mpr ⟨hpvmem, hsamem, halt.symm, hscen⟩
  rw [filter_map_comm, List.filter_filter]
  refine congrArg (List.map Prod.fst)
    (filter_eq_singleton_of_unique J _ (pvmax, samax) ?_ hmemJ ?_ ?_)
  · simp only [Bool.and_eq_true, decide_eq_true_eq]
    refine ⟨⟨hpd, hent⟩, ?_⟩
    refine (maxRankRowNumber_eq_one_iff J (pvmax, samax)).mpr (fun q hq h1 h2 => ?_)
    obtain ⟨hq1, hq2, hq3, hq4⟩ := mem_scenarioJoin.mp hq
    exact hmax q.1 hq1 (h1.trans hpd) (h2.trans hent) q.2 hq2 hq4 hq3.symm
  · intro x hx hPx
    simp only [Bool.and_eq_true, decide_eq_true_eq] at hPx
    obtain ⟨⟨hxpd, hxent⟩, hxrn⟩ := hPx
    obtain ⟨hx1, hx2, hx3, hx4⟩ := mem_scenarioJoin.mp hx
    have hle1 : x.2.rank ≤ samax.rank := hmax x.1 hx1 hxpd hxent x.2 hx2 hx4 hx3.symm
    have hle2 : samax.rank ≤ x.2.rank :=
      (maxRankRowNumber_eq_one_iff J x).mp hxrn (pvmax, samax) hmemJ
        (hpd.trans hxpd.symm) (hent.trans hxent.symm)
    have hrankeq : x.2.rank = samax.rank := Nat.le_antisymm hle1 hle2
    have hsym : Symmetric (fun a b : SARow =>
        ¬(a.scenario_id = b.scenario_id ∧ a.alternative_id = b.alternative_id) ∧
        ¬(a.scenario_id = b.scenario_id ∧ a.rank = b.rank)) := by
      intro a b h
      exact ⟨fun hc => h.1 ⟨hc.1.symm, hc.2.symm⟩, fun hc => h.2 ⟨hc.1.symm, hc.2.symm⟩⟩
    have hsa_eq : x.2 = samax := by
      by_contra hne
      exact (hsand.forall hsym hx2 hsamem hne).2 ⟨hx4.trans hscen.symm, hrankeq⟩
    have hsym2 : Symmetric (fun a b : PVRow => ¬(a.entity_id = b.entity_id ∧
        a.parameter_definition_id = b.parameter_definition_id ∧
        a.alternative_id = b.alternative_id)) := by
      intro a b h hc
      exact h ⟨hc.1.symm, hc.2.1.symm, hc.2.2.symm⟩
    have hpv_eq : x.1 = pvmax := by
      by_contra hne
      refine (hpvnd.forall hsym2 hx1 hpvmem hne)
        ⟨hxent.trans hent.symm, hxpd.trans hpd.symm, ?_⟩
      rw [hx3, hsa_eq, halt]
    exact Prod.ext_iff.mpr ⟨hpv_eq, hsa_eq⟩
  · rw [hJ, countEq_scenarioJoin]
    have h1 : countEq pvs pvmax ≤ 1 :=
      countEq_le_one_of_nodup
        (hpvnd.imp (fun h => by
          intro heq
          subst heq
          exact h ⟨rfl, rfl, rfl⟩)) pvmax
    have h3 : countEq sas samax ≤ 1 :=
      countEq_le_one_of_nodup
        (hsand.imp (fun h => by
          intro heq
          subst heq
          exact h.1 ⟨rfl, rfl⟩)) samax
    have h2 : countEq (sas.filter (fun s =>
        decide (pvmax.alternative_id = s.alternative_id) &&
          decide (s.scenario_id = scen))) samax ≤ countEq sas samax :=
      countEq_sublist (List.filter_sublist _) samax
    calc countEq pvs pvmax * countEq (sas.filter (fun s =>
          decide (pvmax.alternative_id = s.alternative_id) &&
            decide (s.scenario_id = scen))) samax
        ≤ 1 * 1 := Nat.mul_le_mul h1 (Nat.le_trans h2 h3)
      _ = 1 := Nat.one_mul 1

/-- Witness for C1 at the spec's example: scenario 1 ranks alternative 1 at
rank 1 and alternative 2 at rank 2; parameter 1 of entity 1 has value 10
under alternative 1 and value 20 under alternative 2; the filtered view for
that (definition, entity) pair is the single row with value 20. -/
theorem scenario_filter_selects_highest_rank_witness :
    (scenarioFilteredParameterValueSq
        [⟨1, 1, 1, 1, 10⟩, ⟨2, 1, 1, 2, 20⟩] [⟨1, 1, 1⟩, ⟨1, 2, 2⟩] 1).filter
        (fun r => decide (r.parameter_definition_id = 1) && decide (r.entity_id = 1))
      = [⟨2, 1, 1, 2, 20⟩] :=
  scenario_filter_selects_highest_rank
    [⟨1, 1, 1, 1, 10⟩, ⟨2, 1, 1, 2, 20⟩] [⟨1, 1, 1⟩, ⟨1, 2, 2⟩] 1 1 1
    (by decide) (by decide) ⟨2, 1, 1, 2, 20⟩ ⟨1, 2, 2⟩
    (by decide) rfl rfl (by decide) rfl rfl (by decide)

end SpineDB
